import Mathlib

/-!
Shallow embedding of the activation/orchestration layer of the
vscode-pull-request-github extension (src/extension.ts).

The source is a small event-driven orchestrator: `activate` discovers the
first selected git repository (or waits, single-shot, for one to open),
`init` loads configuration, wires a configuration-change handler, constructs
the Pull-Request Manager and the Review Manager, attaches a debounced
selection-changed listener to each repository present at that moment, and
emits a `startup` telemetry event; `deactivate` shuts telemetry down.

The embedding models the orchestrator as an explicit state record and a
step function over events (repository opened, selection changed, debounce
timer fired, configuration changed).  Host-side effects (credential-cache
clears, status refreshes, error notifications, unhandled promise
rejections) are recorded in ghost log fields of the state so that theorems
can speak about them.  JavaScript timers are modelled by a list of live
timer ids plus the `updateRepositoryTimer` variable, exactly mirroring the
clearTimeout/setTimeout discipline of the source.
-/

namespace Ext

/-- Repository handle of the git API: a provider-assigned identity plus the
selection flag exposed through `repo.ui.selected`. -/
structure Repo where
  id : Nat
  selected : Bool
deriving DecidableEq

/-- Outcome of the unawaited `repository.status()` call inside the
configuration-change handler.  Because the source does not await the
returned promise, a synchronous throw and an asynchronous rejection behave
differently, so the model keeps them apart. -/
inductive StatusOutcome where
  | ok
  | syncThrow (e : String)
  | asyncReject (e : String)
deriving DecidableEq

/-- Global state of the embedded orchestrator.  The first block of fields
mirrors mutable state of the source (the git repository collection, the
closure variable `repository` captured by `init`, the two manager
`repository` fields, the attached listeners, the timer variable); the
remaining fields are ghost logs of host-visible effects. -/
structure ExtState where
  repos : List Repo
  telemetryCreated : Bool
  initialized : Bool
  initRepo : Option Nat
  prRepo : Option Nat
  reviewRepo : Option Nat
  watched : List Nat
  pendingTimers : List Nat
  updateRepositoryTimer : Option Nat
  nextTimerId : Nat
  discoveryListening : Bool
  configSubscribed : Bool
  uriHandlerRegistered : Bool
  startupEmitted : Nat
  initCount : Nat
  resolutions : Nat
  credentialClearCalls : Nat
  statusRefreshes : List Nat
  errorsShown : List String
  unhandledRejections : List String
deriving DecidableEq

/-- State at the start of `activate`, before repository discovery: the
telemetry session has just been constructed (`telemetry = new
Telemetry(context)` precedes discovery in the source), nothing else is
wired yet. -/
def initState (repos : List Repo) : ExtState where
  repos := repos
  telemetryCreated := true
  initialized := false
  initRepo := none
  prRepo := none
  reviewRepo := none
  watched := []
  pendingTimers := []
  updateRepositoryTimer := none
  nextTimerId := 0
  discoveryListening := false
  configSubscribed := false
  uriHandlerRegistered := false
  startupEmitted := 0
  initCount := 0
  resolutions := 0
  credentialClearCalls := 0
  statusRefreshes := []
  errorsShown := []
  unhandledRejections := []

/-- Modelled from the spec: the helper `formatError` lives in
common/utils.ts, which is not part of the provided source; the spec only
says a failure is formatted into a user-visible message, so the model tags
the raw message text. -/
def formatError (e : String) : String := "Error: " ++ e

/-- The first repository reporting `selected = true`, in provider
enumeration order: `git.repositories.filter(r => r.ui.selected)[0]`. -/
def firstSelected (repos : List Repo) : Option Repo :=
  (repos.filter fun r => r.selected).head?

/-- Environment action of a selection change: the provider flips the
`selected` flag of the repository with the given id before firing its
`ui.onDidChange` event. -/
def setSel (repos : List Repo) (id : Nat) (sel : Bool) : List Repo :=
  repos.map fun r => if r.id = id then { r with selected := sel } else r

/-- The body of `init(context, git, repository)` for a resolved repository
`r`, parameterised by whether `configuration.loadConfiguration()` succeeds.
On success it wires the configuration-change handler, registers the URI
handler, constructs both managers bound to `r`, attaches selection
listeners to exactly the repositories present in `git.repositories` at this
moment, and emits the `startup` telemetry event.  On failure the awaited
load rethrows before any of those side effects, so the state is dropped and
the error propagates. -/
def runInitE (loadOk : Bool) (s : ExtState) (r : Repo) : Except String ExtState :=
  if loadOk then
    .ok { s with
      initialized := true
      initRepo := some r.id
      configSubscribed := true
      uriHandlerRegistered := true
      prRepo := some r.id
      reviewRepo := some r.id
      watched := s.repos.map fun x => x.id
      startupEmitted := s.startupEmitted + 1
      initCount := s.initCount + 1 }
  else .error "configuration load failed"

/-- The `clearTimeout(updateRepositoryTimer)` call: removes the timer named
by the variable from the live set, a no-op when that timer already fired.
The variable itself is not reset, as in the source. -/
def cancelCurrent (s : ExtState) : ExtState :=
  { s with pendingTimers :=
      match s.updateRepositoryTimer with
      | some t => s.pendingTimers.erase t
      | none => s.pendingTimers }

/-- Effects of the configuration-change handler body that complete without
a synchronous exception reaching the try boundary. -/
structure HandlerEffects where
  statusCalledOn : Option Nat
  unhandledRejection : Option String
deriving DecidableEq

/-- The try-block of the configuration-change handler:
`await prManager.clearCredentialCache(); if (repository) repository.status();`.
A failure of the awaited credential clear, or a synchronous throw of
`status()`, surfaces as `.error` at the try boundary; an asynchronous
rejection of the unawaited `status()` promise does not — it becomes an
unhandled rejection while the handler completes normally. -/
def configHandlerBody (clearO : Except String Unit) (repo : Option Nat)
    (statusO : StatusOutcome) : Except String HandlerEffects :=
  match clearO with
  | .error e => .error e
  | .ok _ =>
    match repo with
    | none => .ok ⟨none, none⟩
    | some rid =>
      match statusO with
      | .syncThrow e => .error e
      | .asyncReject e => .ok ⟨some rid, some e⟩
      | .ok => .ok ⟨some rid, none⟩

/-- The registered configuration-change handler: guarded by `if (prManager)`,
it runs the try-block and catches any synchronous error at the boundary,
showing it via `vscode.window.showErrorMessage(formatError(e))`.  Note that
the repository whose status is refreshed is `initRepo`, the closure
variable captured when `init` ran, not the manager field updated by the
debounce resolution. -/
def configChangeStep (clearO : Except String Unit) (statusO : StatusOutcome)
    (s : ExtState) : ExtState :=
  if s.initialized then
    match configHandlerBody clearO s.initRepo statusO with
    | .error e => { s with
        credentialClearCalls := s.credentialClearCalls + 1
        errorsShown := s.errorsShown ++ [formatError e] }
    | .ok eff => { s with
        credentialClearCalls := s.credentialClearCalls + 1
        statusRefreshes := s.statusRefreshes ++ eff.statusCalledOn.toList
        unhandledRejections := s.unhandledRejections ++ eff.unhandledRejection.toList }
  else s

/-- Events dispatched by the host to the orchestrator. -/
inductive Event where
  | repoOpened (r : Repo)
  | selChanged (id : Nat) (sel : Bool)
  | timerFire
  | configChange (clearOutcome : Except String Unit) (statusOutcome : StatusOutcome)

/-- One host-dispatch step, parameterised by whether a configuration load
performed during this step succeeds.

Modelled from the spec where it concerns `onceEvent`/`filterEvent` (both
live in common/utils.ts, not part of the provided source): the deferred
discovery path is a single-shot subscription on the filtered
repository-opened stream that auto-unsubscribes on the first selected
repository and ignores non-selected ones, exactly as §4.1 of the spec
describes.

The selection-changed branch is the listener `init` attached: only watched
repositories reach it; it clears the current timer and schedules a fresh
one.  The timer-fire branch is the setTimeout callback: it recomputes the
first selected repository from the collection as it is now and, when one
exists, assigns it to both manager fields in the same synchronous step. -/
def stepL (loadOk : Bool) (e : Event) (s : ExtState) : ExtState :=
  match e with
  | .repoOpened r =>
    let s1 := { s with repos := s.repos ++ [r] }
    if s1.discoveryListening && r.selected then
      let s2 := { s1 with discoveryListening := false }
      match runInitE loadOk s2 r with
      | .ok s3 => s3
      | .error _ => s2
    else s1
  | .selChanged id sel =>
    let s1 := { s with repos := setSel s.repos id sel }
    if s1.watched.contains id then
      let s2 := cancelCurrent s1
      { s2 with
        pendingTimers := s2.pendingTimers ++ [s2.nextTimerId]
        updateRepositoryTimer := some s2.nextTimerId
        nextTimerId := s2.nextTimerId + 1 }
    else s1
  | .timerFire =>
    match s.pendingTimers with
    | [] => s
    | t :: _ =>
      let s1 := { s with
        pendingTimers := s.pendingTimers.erase t
        resolutions := s.resolutions + 1 }
      match firstSelected s1.repos with
      | some r => { s1 with prRepo := some r.id, reviewRepo := some r.id }
      | none => s1
  | .configChange clearO statusO => configChangeStep clearO statusO s

/-- Host-dispatch step after a successful configuration load. -/
def step (e : Event) (s : ExtState) : ExtState := stepL true e s

/-- The `activate(context)` entry point: construct telemetry, look for the
first selected repository; if one exists run `init` on it synchronously
(propagating a configuration-load failure), otherwise arm the single-shot
deferred-discovery subscription. -/
def activateE (loadOk : Bool) (repos : List Repo) : Except String ExtState :=
  let s0 := initState repos
  match firstSelected repos with
  | some r => runInitE loadOk s0 r
  | none => .ok { s0 with discoveryListening := true }

/-- Total activation with a successful configuration load; used to build
concrete traces. -/
def activateOk (repos : List Repo) : ExtState :=
  match activateE true repos with
  | .ok s => s
  | .error _ => initState repos

/-- Teardown actions of `deactivate()`. -/
inductive ShutdownAction where
  | awaitTelemetryShutdown
deriving DecidableEq

/-- The `deactivate()` entry point: `if (telemetry) await telemetry.shutdown()`.
The returned list is the sequence of awaited teardown effects. -/
def deactivateEffects (telemetryExists : Bool) : List ShutdownAction :=
  if telemetryExists then [.awaitTelemetryShutdown] else []

/-- Primitive side effects of the body of `init`, in source order. -/
inductive InitAction where
  | loadConfiguration
  | registerConfigHandler
  | pushConfigSubscription
  | registerUriHandler
  | constructPRManager
  | constructReviewManager
  | registerCommands
  | attachSelectionListeners
  | emitStartup
deriving DecidableEq, BEq

/-- The effect sequence of a successful run of `init`, read off the source
line by line. -/
def initActions : List InitAction :=
  [.loadConfiguration, .registerConfigHandler, .pushConfigSubscription,
   .registerUriHandler, .constructPRManager, .constructReviewManager,
   .registerCommands, .attachSelectionListeners, .emitStartup]

/-- States reachable from a successful activation by host event dispatch. -/
inductive Reachable : ExtState → Prop where
  | activated (repos : List Repo) (s : ExtState)
      (h : activateE true repos = .ok s) : Reachable s
  | next (e : Event) (s : ExtState) (h : Reachable s) : Reachable (step e s)


/-- Timer discipline of the debounce: at most one timer is ever pending, and
when one is pending it is the one named by the `updateRepositoryTimer`
variable. -/
def TimerInv (s : ExtState) : Prop :=
  match s.pendingTimers with
  | [] => True
  | [t] => s.updateRepositoryTimer = some t
  | _ :: _ :: _ => False

/-- Invariant of every reachable state: startup telemetry count tracks the
number of completed `init` runs, which is at most one; a state is
initialized exactly when `init` ran once; the deferred-discovery
subscription is live only before initialization; both managers always point
at the same repository; telemetry exists; an initialized state remembers
the repository `init` was bound to; and the timer discipline holds. -/
def StateInv (s : ExtState) : Prop :=
  s.startupEmitted = s.initCount ∧
  s.initCount ≤ 1 ∧
  (s.initialized = true ↔ s.initCount = 1) ∧
  (s.discoveryListening = true → s.initialized = false) ∧
  s.prRepo = s.reviewRepo ∧
  s.telemetryCreated = true ∧
  (s.initialized = true → s.initRepo.isSome = true) ∧
  TimerInv s

/-- Concrete trace for the configuration-change target: activation on a
workspace where repository 1 is selected and repository 2 is not, then a
debounced selection switch to repository 2, then a configuration change
whose credential clear and status refresh both succeed. -/
def c1Trace : ExtState :=
  step (.configChange (.ok ()) .ok)
    (step .timerFire
      (step (.selChanged 2 true)
        (step (.selChanged 1 false) (activateOk [⟨1, true⟩, ⟨2, false⟩]))))

/-- Concrete trace for handler failure isolation: activation on a single
selected repository, then a configuration change whose credential clear
succeeds but whose unawaited status refresh rejects asynchronously. -/
def c2Trace : ExtState :=
  step (.configChange (.ok ()) (.asyncReject "status failed")) (activateOk [⟨1, true⟩])

/-- Under the timer discipline, `clearTimeout(updateRepositoryTimer)`
leaves no pending timer. -/
lemma cancelCurrent_pendingTimers (s : ExtState) (h : TimerInv s) :
    (cancelCurrent s).pendingTimers = [] := by
  unfold TimerInv at h
  unfold cancelCurrent
  cases hp : s.pendingTimers with
  | nil => cases hv : s.updateRepositoryTimer <;> simp [hv]
  | cons t rest =>
    cases rest with
    | nil =>
      simp only [hp] at h
      simp [h, hp]
    | cons t2 rest2 =>
      simp only [hp] at h

/-- Every reachable state satisfies the global invariant. -/
theorem reachable_inv (s : ExtState) (hs : Reachable s) : StateInv s := by
  induction hs with
  | activated repos s h =>
    unfold activateE at h
    cases h1 : firstSelected repos with
    | none =>
      simp only [h1, Except.ok.injEq] at h
      subst h
      simp [StateInv, TimerInv, initState]
    | some r =>
      simp only [h1, runInitE, if_true, Except.ok.injEq] at h
      subst h
      simp [StateInv, TimerInv, initState]
  | next e s hs ih =>
    obtain ⟨h1, h2, h3, h4, h5, h6, h7, h8⟩ := ih
    cases e with
    | repoOpened r =>
      simp only [step, stepL]
      split
      · case _ hcond =>
        simp only [Bool.and_eq_true] at hcond
        have hinit : s.initialized = false := h4 hcond.1
        have hcount : s.initCount = 0 := by
          rcases Nat.lt_or_ge s.initCount 1 with hlt | hge
          · omega
          · exact absurd (h3.mpr (by omega)) (by simp [hinit])
        simp only [runInitE, if_true]
        exact ⟨by simp [h1], by simp [hcount], by simp [hcount], by simp,
          by simp, by simpa using h6, by simp, h8⟩
      · exact ⟨h1, h2, h3, h4, h5, h6, h7, h8⟩
    | selChanged id sel =>
      simp only [step, stepL]
      split
      · have hpend : (match s.updateRepositoryTimer with
            | some t => s.pendingTimers.erase t
            | none => s.pendingTimers) = [] := cancelCurrent_pendingTimers s h8
        refine ⟨h1, h2, h3, h4, h5, h6, h7, ?_⟩
        simp [TimerInv, cancelCurrent, hpend]
      · exact ⟨h1, h2, h3, h4, h5, h6, h7, h8⟩
    | timerFire =>
      simp only [step, stepL]
      cases hp : s.pendingTimers with
      | nil => exact ⟨h1, h2, h3, h4, h5, h6, h7, h8⟩
      | cons t rest =>
        cases rest with
        | cons t2 rest2 =>
          unfold TimerInv at h8
          simp only [hp] at h8
        | nil =>
          have herase : (t :: ([] : List Nat)).erase t = [] := by simp
          cases hfs : firstSelected (s.repos) with
          | some r =>
            refine ⟨h1, h2, h3, h4, rfl, h6, h7, ?_⟩
            simp [TimerInv, hp, herase]
          | none =>
            refine ⟨h1, h2, h3, h4, h5, h6, h7, ?_⟩
            simp [TimerInv, hp, herase]
    | configChange clearO statusO =>
      simp only [step, stepL, configChangeStep]
      split
      · split
        · exact ⟨h1, h2, h3, h4, h5, h6, h7, h8⟩
        · exact ⟨h1, h2, h3, h4, h5, h6, h7, h8⟩
      · exact ⟨h1, h2, h3, h4, h5, h6, h7, h8⟩


/-- Fields of the orchestrator untouched by the configuration-change
handler, whatever the outcomes of its two calls. -/
lemma configChangeStep_frame (clearO : Except String Unit) (statusO : StatusOutcome)
    (s : ExtState) :
    (configChangeStep clearO statusO s).prRepo = s.prRepo ∧
    (configChangeStep clearO statusO s).reviewRepo = s.reviewRepo ∧
    (configChangeStep clearO statusO s).initRepo = s.initRepo ∧
    (configChangeStep clearO statusO s).pendingTimers = s.pendingTimers ∧
    (configChangeStep clearO statusO s).watched = s.watched ∧
    (configChangeStep clearO statusO s).initialized = s.initialized := by
  unfold configChangeStep
  split
  · split <;> exact ⟨rfl, rfl, rfl, rfl, rfl, rfl⟩
  · exact ⟨rfl, rfl, rfl, rfl, rfl, rfl⟩

/-- C5: a debounce resolution that finds a first selected repository
assigns it to both managers within the same synchronous step, and in every
reachable state — hence at every point an observer can see — the
Pull-Request Manager and the Review Manager point at the same repository. -/
theorem c5_atomic_manager_assignment (s : ExtState) (hs : Reachable s) :
    s.prRepo = s.reviewRepo ∧
    (∀ r t rest, s.pendingTimers = t :: rest → firstSelected s.repos = some r →
      (step .timerFire s).prRepo = some r.id ∧
      (step .timerFire s).reviewRepo = some r.id) := by
  refine ⟨(reachable_inv s hs).2.2.2.2.1, ?_⟩
  intro r t rest hp hfs
  simp [step, stepL, hp, hfs]

theorem c5_witness :
    (step (.selChanged 2 true) (activateOk [⟨1, true⟩, ⟨2, false⟩])).prRepo =
      (step (.selChanged 2 true) (activateOk [⟨1, true⟩, ⟨2, false⟩])).reviewRepo ∧
    (step .timerFire (step (.selChanged 2 true) (activateOk [⟨1, true⟩, ⟨2, false⟩]))).prRepo
      = some 1 ∧
    (step .timerFire (step (.selChanged 2 true) (activateOk [⟨1, true⟩, ⟨2, false⟩]))).reviewRepo
      = some 1 := by
  have h := c5_atomic_manager_assignment
    (step (.selChanged 2 true) (activateOk [⟨1, true⟩, ⟨2, false⟩]))
    (Reachable.next _ _ (Reachable.activated [⟨1, true⟩, ⟨2, false⟩] _ rfl))
  have h2 := h.2 ⟨1, true⟩ 0 [] (by decide) (by decide)
  exact ⟨h.1, h2.1, h2.2⟩

/-- C6: when the debounce timer fires and no repository reports
selected = true, neither manager is reassigned and the state is unchanged
except that the fired timer is no longer pending (and the ghost count of
resolutions records that the callback ran). -/
theorem c6_noop_when_nothing_selected (s : ExtState) (t : Nat) (rest : List Nat)
    (hp : s.pendingTimers = t :: rest) (hfs : firstSelected s.repos = none) :
    step .timerFire s = { s with
      pendingTimers := s.pendingTimers.erase t
      resolutions := s.resolutions + 1 } := by
  simp [step, stepL, hp, hfs]

theorem c6_witness :
    step .timerFire (step (.selChanged 1 false) (activateOk [⟨1, true⟩])) =
      { step (.selChanged 1 false) (activateOk [⟨1, true⟩]) with
        pendingTimers :=
          ((step (.selChanged 1 false) (activateOk [⟨1, true⟩])).pendingTimers).erase 0
        resolutions :=
          (step (.selChanged 1 false) (activateOk [⟨1, true⟩])).resolutions + 1 } :=
  c6_noop_when_nothing_selected _ 0 [] (by decide) (by decide)

/-- C4: in every reachable state at most one debounce timer is pending; a
selection-changed event on a watched repository cancels the pending timer
and schedules exactly one fresh timer; and a firing runs exactly one
resolution, computing the first selected repository from the repository
collection as it is at fire time. -/
theorem c4_debounce_single_timer (s : ExtState) (hs : Reachable s) (id : Nat) (b : Bool) :
    s.pendingTimers.length ≤ 1 ∧
    (id ∈ s.watched →
      (step (.selChanged id b) s).pendingTimers = [s.nextTimerId] ∧
      (step (.selChanged id b) s).updateRepositoryTimer = some s.nextTimerId ∧
      (step (.selChanged id b) s).nextTimerId = s.nextTimerId + 1) ∧
    (∀ t rest, s.pendingTimers = t :: rest →
      (step .timerFire s).resolutions = s.resolutions + 1 ∧
      (step .timerFire s).prRepo =
        (match firstSelected s.repos with
         | some r => some r.id
         | none => s.prRepo)) := by
  have h8 : TimerInv s := (reachable_inv s hs).2.2.2.2.2.2.2
  refine ⟨?_, ?_, ?_⟩
  · unfold TimerInv at h8
    cases hp : s.pendingTimers with
    | nil => simp
    | cons t rest =>
      cases rest with
      | nil => simp
      | cons t2 r2 => simp only [hp] at h8
  · intro hw
    have hpend : (match s.updateRepositoryTimer with
        | some t => s.pendingTimers.erase t
        | none => s.pendingTimers) = [] := cancelCurrent_pendingTimers s h8
    simp [step, stepL, cancelCurrent, hpend, hw]
  · intro t rest hp
    cases rest with
    | cons t2 r2 =>
      unfold TimerInv at h8
      simp only [hp] at h8
    | nil =>
      refine ⟨?_, ?_⟩ <;> cases hfs : firstSelected s.repos <;> simp [step, stepL, hp, hfs]

theorem c4_witness :
    (step (.selChanged 2 true) (activateOk [⟨1, true⟩, ⟨2, false⟩])).pendingTimers = [0] ∧
    (step .timerFire (step (.selChanged 2 true) (activateOk [⟨1, true⟩, ⟨2, false⟩]))).resolutions
      = 1 := by
  have h := c4_debounce_single_timer (activateOk [⟨1, true⟩, ⟨2, false⟩])
    (Reachable.activated [⟨1, true⟩, ⟨2, false⟩] _ rfl) 2 true
  have h2 := c4_debounce_single_timer
    (step (.selChanged 2 true) (activateOk [⟨1, true⟩, ⟨2, false⟩]))
    (Reachable.next _ _ (Reachable.activated [⟨1, true⟩, ⟨2, false⟩] _ rfl)) 2 true
  refine ⟨?_, ?_⟩
  · have := (h.2.1 (by decide)).1
    simpa using this
  · have := (h2.2.2 0 [] (by decide)).1
    simpa using this


/-- C7: the effect sequence of `init` contains the `startup` telemetry
emission exactly once and as its final action — strictly after both manager
constructions and every other initialization side effect — and across any
reachable state the number of `startup` emissions equals the number of
completed `init` runs, which is at most one per activation. -/
theorem c7_startup_once_after_managers :
    initActions.count .emitStartup = 1 ∧
    initActions.getLast? = some .emitStartup ∧
    (initActions.dropLast.all fun a => a != .emitStartup) = true ∧
    (∀ s, Reachable s → s.startupEmitted = s.initCount ∧ s.initCount ≤ 1) := by
  refine ⟨by decide, by decide, by decide, ?_⟩
  intro s hs
  exact ⟨(reachable_inv s hs).1, (reachable_inv s hs).2.1⟩

theorem c7_witness :
    initActions.count .emitStartup = 1 ∧
    (activateOk [⟨1, true⟩]).startupEmitted = (activateOk [⟨1, true⟩]).initCount ∧
    (activateOk [⟨1, true⟩]).initCount ≤ 1 := by
  have h := c7_startup_once_after_managers
  have h4 := h.2.2.2 (activateOk [⟨1, true⟩]) (Reachable.activated [⟨1, true⟩] _ rfl)
  exact ⟨h.1, h4.1, h4.2⟩

/-- C9: `deactivate` awaits the telemetry shutdown exactly when a telemetry
session exists, and performs no shutdown call otherwise. -/
theorem c9_deactivate_shutdown_iff_telemetry :
    deactivateEffects true = [.awaitTelemetryShutdown] ∧
    deactivateEffects false = [] ∧
    (∀ t : Bool, (deactivateEffects t ≠ [] ↔ t = true) ∧
      ((deactivateEffects t).contains .awaitTelemetryShutdown = true ↔ t = true)) := by
  refine ⟨rfl, rfl, ?_⟩
  intro t
  cases t <;> simp [deactivateEffects]

/-- C10: a selection-changed event of a repository without an attached
listener changes only the selection flag in the provider collection — it
schedules no debounce timer and touches no manager; `init` attaches
listeners to exactly the repositories enumerated at the moment it runs; and
once initialized, no later event ever extends the watched set. -/
theorem c10_listeners_fixed_at_init :
    (∀ s id b, id ∉ s.watched →
      step (.selChanged id b) s = { s with repos := setSel s.repos id b }) ∧
    (∀ s r, ∃ s3, runInitE true s r = .ok s3 ∧
      s3.watched = s.repos.map fun x => x.id) ∧
    (∀ s e, Reachable s → s.initialized = true → (step e s).watched = s.watched) := by
  refine ⟨?_, ?_, ?_⟩
  · intro s id b hw
    simp [step, stepL, hw]
  · intro s r
    exact ⟨_, rfl, rfl⟩
  · intro s e hs hinit
    have hinv := reachable_inv s hs
    have hd : s.discoveryListening = false := by
      rcases Bool.eq_false_or_eq_true s.discoveryListening with h | h
      · rw [hinv.2.2.2.1 h] at hinit
        simp at hinit
      · exact h
    cases e with
    | repoOpened r => simp [step, stepL, hd]
    | selChanged id b =>
      simp only [step, stepL]
      split
      · simp [cancelCurrent]
      · rfl
    | timerFire =>
      cases hp : s.pendingTimers with
      | nil => simp [step, stepL, hp]
      | cons t rest => cases hfs : firstSelected s.repos <;> simp [step, stepL, hp, hfs]
    | configChange clearO statusO =>
      exact (configChangeStep_frame clearO statusO s).2.2.2.2.1

theorem c10_witness :
    step (.selChanged 5 true) (activateOk [⟨1, true⟩]) =
      { activateOk [⟨1, true⟩] with repos := setSel (activateOk [⟨1, true⟩]).repos 5 true } ∧
    (step (.repoOpened ⟨7, true⟩) (activateOk [⟨1, true⟩])).watched
      = (activateOk [⟨1, true⟩]).watched := by
  have h := c10_listeners_fixed_at_init
  exact ⟨h.1 (activateOk [⟨1, true⟩]) 5 true (by decide),
    h.2.2 (activateOk [⟨1, true⟩]) (.repoOpened ⟨7, true⟩)
      (Reachable.activated [⟨1, true⟩] _ rfl) (by decide)⟩

/-- C8: a failing configuration load makes `init` propagate the failure
with no orchestrator state produced; on the synchronous activation path the
failure propagates out of `activate`; and on the deferred path the event
handler leaves the orchestrator exactly as unwired as before — no
configuration subscription, URI handler, listener set, manager binding or
startup telemetry. -/
theorem c8_config_load_failure_aborts (s : ExtState) (repos : List Repo) (r : Repo) :
    runInitE false s r = .error "configuration load failed" ∧
    (firstSelected repos = some r → activateE false repos = .error "configuration load failed") ∧
    (s.discoveryListening = true → r.selected = true →
      (stepL false (.repoOpened r) s).initialized = s.initialized ∧
      (stepL false (.repoOpened r) s).configSubscribed = s.configSubscribed ∧
      (stepL false (.repoOpened r) s).uriHandlerRegistered = s.uriHandlerRegistered ∧
      (stepL false (.repoOpened r) s).watched = s.watched ∧
      (stepL false (.repoOpened r) s).startupEmitted = s.startupEmitted ∧
      (stepL false (.repoOpened r) s).initCount = s.initCount ∧
      (stepL false (.repoOpened r) s).prRepo = s.prRepo ∧
      (stepL false (.repoOpened r) s).reviewRepo = s.reviewRepo) := by
  refine ⟨rfl, ?_, ?_⟩
  · intro hfs
    simp [activateE, hfs, runInitE]
  · intro hd hr
    simp [stepL, hd, hr, runInitE]

theorem c8_witness :
    activateE false [⟨1, true⟩] = .error "configuration load failed" ∧
    (stepL false (.repoOpened ⟨2, true⟩) (activateOk ([] : List Repo))).startupEmitted = 0 ∧
    (stepL false (.repoOpened ⟨2, true⟩) (activateOk ([] : List Repo))).configSubscribed
      = false := by
  have h := c8_config_load_failure_aborts (activateOk ([] : List Repo)) [⟨1, true⟩] ⟨1, true⟩
  have h2 := c8_config_load_failure_aborts (activateOk ([] : List Repo)) [⟨1, true⟩] ⟨2, true⟩
  have h3 := h2.2.2 (by decide) (by decide)
  refine ⟨h.2.1 (by decide), ?_, ?_⟩
  · have := h3.2.2.2.2.1
    simpa using this
  · have := h3.2.1
    simpa using this

/-- C3: if some repository is selected at activation, `init` runs once on
the first such repository in enumeration order; otherwise activation defers,
and the single-shot filtered subscription runs `init` exactly once on the
first selected repository-opened event, ignoring non-selected events and —
because the subscription is disposed on first match and an initialized
state never listens again — triggering no further initialization on any
later event. -/
theorem c3_initial_discovery_once (repos : List Repo) (s : ExtState) (r : Repo) :
    (∀ r0, firstSelected repos = some r0 →
      ((activateE true repos).map fun s1 =>
        (s1.initialized, s1.initCount, s1.initRepo, s1.prRepo))
        = .ok (true, 1, some r0.id, some r0.id)) ∧
    (firstSelected repos = none →
      ((activateE true repos).map fun s1 =>
        (s1.initialized, s1.initCount, s1.discoveryListening))
        = .ok (false, 0, true)) ∧
    (s.discoveryListening = true → r.selected = true →
      (step (.repoOpened r) s).initCount = s.initCount + 1 ∧
      (step (.repoOpened r) s).initRepo = some r.id ∧
      (step (.repoOpened r) s).discoveryListening = false) ∧
    (r.selected = false →
      (step (.repoOpened r) s).initCount = s.initCount ∧
      (step (.repoOpened r) s).discoveryListening = s.discoveryListening) ∧
    (s.discoveryListening = false →
      (step (.repoOpened r) s).initCount = s.initCount) ∧
    (Reachable s → s.initialized = true → s.discoveryListening = false) := by
  refine ⟨?_, ?_, ?_, ?_, ?_, ?_⟩
  · intro r0 hfs
    simp [activateE, hfs, runInitE, initState, Except.map]
  · intro hfs
    simp [activateE, hfs, initState, Except.map]
  · intro hd hr
    simp [step, stepL, hd, hr, runInitE]
  · intro hr
    simp [step, stepL, hr]
  · intro hd
    simp [step, stepL, hd]
  · intro hs hinit
    have hinv := reachable_inv s hs
    rcases Bool.eq_false_or_eq_true s.discoveryListening with h | h
    · rw [hinv.2.2.2.1 h] at hinit
      simp at hinit
    · exact h

theorem c3_witness :
    ((activateE true [⟨1, false⟩, ⟨2, true⟩, ⟨3, true⟩]).map fun s1 =>
      (s1.initialized, s1.initCount, s1.initRepo, s1.prRepo))
      = .ok (true, 1, some 2, some 2) ∧
    (step (.repoOpened ⟨2, true⟩) (activateOk [⟨1, false⟩])).initCount = 1 ∧
    (step (.repoOpened ⟨3, true⟩)
      (step (.repoOpened ⟨2, true⟩) (activateOk [⟨1, false⟩]))).initCount = 1 := by
  have h1 := (c3_initial_discovery_once [⟨1, false⟩, ⟨2, true⟩, ⟨3, true⟩]
    (activateOk [⟨1, false⟩]) ⟨2, true⟩).1 ⟨2, true⟩ (by decide)
  have h2 := (c3_initial_discovery_once ([] : List Repo)
    (activateOk [⟨1, false⟩]) ⟨2, true⟩).2.2.1 (by decide) (by decide)
  have h3 := (c3_initial_discovery_once ([] : List Repo)
    (step (.repoOpened ⟨2, true⟩) (activateOk [⟨1, false⟩])) ⟨3, true⟩).2.2.2.2.1 (by decide)
  refine ⟨h1, ?_, ?_⟩
  · exact h2.1
  · rw [h3]
    exact h2.1


/-- C1 counterexample: after activation binds `init` to repository 1 and a
debounce resolution reassigns the active repository of both managers to
repository 2, a configuration change still refreshes the status of
repository 1 — the handler reads the `repository` parameter captured by the
`init` closure, not the most recently assigned active repository. -/
theorem c1_counterexample :
    c1Trace.prRepo = some 2 ∧ c1Trace.reviewRepo = some 2 ∧
    c1Trace.statusRefreshes = [1] ∧ c1Trace.statusRefreshes ≠ [2] := by decide

/-- C1 amended: on every configuration change arriving after the managers
are initialized, the handler invalidates the Pull-Request Manager
credential cache and asks the repository that `init` was bound to — which
the debounce path never updates — to refresh its status, showing no error
when both calls succeed. -/
theorem c1_amended_refresh_targets_init_repo (s : ExtState) (rid : Nat)
    (h1 : s.initialized = true) (h2 : s.initRepo = some rid) :
    (step (.configChange (.ok ()) .ok) s).credentialClearCalls = s.credentialClearCalls + 1 ∧
    (step (.configChange (.ok ()) .ok) s).statusRefreshes = s.statusRefreshes ++ [rid] ∧
    (step (.configChange (.ok ()) .ok) s).errorsShown = s.errorsShown := by
  simp [step, stepL, configChangeStep, h1, h2, configHandlerBody]

theorem c1_witness :
    (step (.configChange (.ok ()) .ok) (activateOk [⟨1, true⟩])).statusRefreshes = [1] ∧
    (step (.configChange (.ok ()) .ok) (activateOk [⟨1, true⟩])).credentialClearCalls = 1 := by
  have h := c1_amended_refresh_targets_init_repo (activateOk [⟨1, true⟩]) 1
    (by decide) (by decide)
  exact ⟨h.2.1, h.1⟩

/-- C2 counterexample: a configuration change whose credential clear
succeeds but whose `repository.status()` promise rejects asynchronously
produces no user-visible error message — the source does not await
`status()`, so the rejection escapes the try/catch as an unhandled
rejection instead of being caught and formatted. -/
theorem c2_counterexample :
    c2Trace.errorsShown = [] ∧ c2Trace.unhandledRejections = ["status failed"] ∧
    c2Trace.statusRefreshes = [1] ∧ c2Trace.prRepo = (activateOk [⟨1, true⟩]).prRepo := by
  decide

/-- C2 amended: the configuration-change handler never alters the
active-repository pointer of either manager, never removes a pending
debounce timer, and catches every failure that reaches the try boundary
synchronously — a failing awaited credential clear or a synchronous throw
of the status call — formatting it into a user-visible message; only an
asynchronous rejection of the unawaited status call bypasses the catch,
surfacing as an unhandled rejection rather than propagating out of the
handler. -/
theorem c2_amended_handler_isolation (s : ExtState) (clearO : Except String Unit)
    (statusO : StatusOutcome) :
    (step (.configChange clearO statusO) s).prRepo = s.prRepo ∧
    (step (.configChange clearO statusO) s).reviewRepo = s.reviewRepo ∧
    (step (.configChange clearO statusO) s).initRepo = s.initRepo ∧
    (step (.configChange clearO statusO) s).pendingTimers = s.pendingTimers ∧
    (∀ e, s.initialized = true → configHandlerBody clearO s.initRepo statusO = .error e →
      (step (.configChange clearO statusO) s).errorsShown = s.errorsShown ++ [formatError e]) ∧
    (∀ e, s.initialized = true → clearO = .error e →
      (step (.configChange clearO statusO) s).errorsShown = s.errorsShown ++ [formatError e]) := by
  have hf := configChangeStep_frame clearO statusO s
  refine ⟨hf.1, hf.2.1, hf.2.2.1, hf.2.2.2.1, ?_, ?_⟩
  · intro e hinit herr
    simp [step, stepL, configChangeStep, hinit, herr]
  · intro e hinit hclear
    simp [step, stepL, configChangeStep, hinit, hclear, configHandlerBody]

theorem c2_witness :
    (step (.configChange (.error "cred down") .ok) (activateOk [⟨1, true⟩])).errorsShown
      = [formatError "cred down"] ∧
    (step (.configChange (.error "cred down") .ok) (activateOk [⟨1, true⟩])).prRepo
      = (activateOk [⟨1, true⟩]).prRepo := by
  have h := c2_amended_handler_isolation (activateOk [⟨1, true⟩]) (.error "cred down") .ok
  refine ⟨?_, h.1⟩
  have h6 := h.2.2.2.2.2 "cred down" (by decide) rfl
  simpa using h6

end Ext
